import Mathlib

/-!
Verification of the sports-statistics ingestion pipeline
(backend services `nbaStatsService.js`, `eplService.js`, `updateService.js`
and util `nbaStatsUtils.js`) against its specification.

JavaScript numbers that only ever hold finite numeric stat values are
modelled as rationals (`ℚ`); timestamps (`new Date()`) are modelled as a
`Nat` clock value passed explicitly; a JavaScript division whose result
may be non-finite (`NaN`/`Infinity`, from a zero divisor) is modelled as
`Option ℚ` with `none` for the non-finite case; an absent (`undefined` or
`null`) field is modelled as `none` of an `Option` type.
-/

namespace SportsPipeline

/-- `isPrefixList p s` is true when the character list `p` occurs at the
head of `s` (helper for the JavaScript `String.includes` model). -/
def isPrefixList : List Char → List Char → Bool
  | [], _ => true
  | _ :: _, [] => false
  | p :: ps, c :: cs => p == c && isPrefixList ps cs

/-- `containsList p s` is true when `p` occurs as a contiguous run inside
`s`: the model of JavaScript `s.includes(p)`. -/
def containsList (pat : List Char) : List Char → Bool
  | [] => pat.isEmpty
  | c :: rest => isPrefixList pat (c :: rest) || containsList pat rest

/-- Model of JavaScript `s.includes('TM')` used by the trade resolver to
recognise aggregate records such as `"2TM"`, `"3TM"`. -/
def hasTM (s : String) : Bool := containsList ['T', 'M'] s.toList

/-- One bulk-API statistics record (`record` in `processBulkPlayerData` /
`statsRecord` in `updatePlayerStats`), carrying the union of the fields
read by the totals path and the advanced path of `nbaStatsService.js`. -/
structure StatsRecord where
  playerId : String := ""
  playerName : String := ""
  season : Int := 0
  team : String := ""
  id : Int := 0
  position : String := ""
  age : ℚ := 0
  games : ℚ := 0
  gamesStarted : ℚ := 0
  minutesPg : ℚ := 0
  fieldGoals : ℚ := 0
  fieldAttempts : ℚ := 0
  fieldPercent : ℚ := 0
  threeFg : ℚ := 0
  threeAttempts : ℚ := 0
  threePercent : ℚ := 0
  twoFg : ℚ := 0
  twoAttempts : ℚ := 0
  twoPercent : ℚ := 0
  effectFgPercent : ℚ := 0
  ft : ℚ := 0
  ftAttempts : ℚ := 0
  ftPercent : ℚ := 0
  offensiveRb : ℚ := 0
  defensiveRb : ℚ := 0
  totalRb : ℚ := 0
  assists : ℚ := 0
  steals : ℚ := 0
  blocks : ℚ := 0
  turnovers : ℚ := 0
  personalFouls : ℚ := 0
  points : ℚ := 0
  minutesPlayed : ℚ := 0
  per : ℚ := 0
  tsPercent : ℚ := 0
  threePAR : ℚ := 0
  ftr : ℚ := 0
  offensiveRBPercent : ℚ := 0
  defensiveRBPercent : ℚ := 0
  totalRBPercent : ℚ := 0
  assistPercent : ℚ := 0
  stealPercent : ℚ := 0
  blockPercent : ℚ := 0
  turnoverPercent : ℚ := 0
  usagePercent : ℚ := 0
  offensiveWS : ℚ := 0
  defensiveWS : ℚ := 0
  winShares : ℚ := 0
  winSharesPer : ℚ := 0
  offensiveBox : ℚ := 0
  defensiveBox : ℚ := 0
  box : ℚ := 0
  vorp : ℚ := 0
  deriving DecidableEq

/-- The `totals` category block written by `updatePlayerStats`
(`seasonStats.totals = { ... }`, nbaStatsService.js lines 339-365). -/
structure TotalsBlock where
  games : ℚ
  gamesStarted : ℚ
  minutesPg : ℚ
  fieldGoals : ℚ
  fieldAttempts : ℚ
  fieldPercent : ℚ
  threeFg : ℚ
  threeAttempts : ℚ
  threePercent : ℚ
  twoFg : ℚ
  twoAttempts : ℚ
  twoPercent : ℚ
  effectFgPercent : ℚ
  ft : ℚ
  ftAttempts : ℚ
  ftPercent : ℚ
  offensiveRb : ℚ
  defensiveRb : ℚ
  totalRb : ℚ
  assists : ℚ
  steals : ℚ
  blocks : ℚ
  turnovers : ℚ
  personalFouls : ℚ
  points : ℚ
  deriving DecidableEq

/-- The `advanced` category block written by `updatePlayerStats`
(`seasonStats.advanced = { ... }`, nbaStatsService.js lines 369-392). -/
structure AdvancedBlock where
  games : ℚ
  minutesPlayed : ℚ
  per : ℚ
  tsPercent : ℚ
  threePAR : ℚ
  ftr : ℚ
  offensiveRBPercent : ℚ
  defensiveRBPercent : ℚ
  totalRBPercent : ℚ
  assistPercent : ℚ
  stealPercent : ℚ
  blockPercent : ℚ
  turnoverPercent : ℚ
  usagePercent : ℚ
  offensiveWS : ℚ
  defensiveWS : ℚ
  winShares : ℚ
  winSharesPer : ℚ
  offensiveBox : ℚ
  defensiveBox : ℚ
  box : ℚ
  vorp : ℚ
  deriving DecidableEq

/-- Field-for-field copy of a stats record into a `totals` block. -/
def mkTotals (r : StatsRecord) : TotalsBlock :=
  { games := r.games, gamesStarted := r.gamesStarted, minutesPg := r.minutesPg,
    fieldGoals := r.fieldGoals, fieldAttempts := r.fieldAttempts,
    fieldPercent := r.fieldPercent, threeFg := r.threeFg,
    threeAttempts := r.threeAttempts, threePercent := r.threePercent,
    twoFg := r.twoFg, twoAttempts := r.twoAttempts, twoPercent := r.twoPercent,
    effectFgPercent := r.effectFgPercent, ft := r.ft,
    ftAttempts := r.ftAttempts, ftPercent := r.ftPercent,
    offensiveRb := r.offensiveRb, defensiveRb := r.defensiveRb,
    totalRb := r.totalRb, assists := r.assists, steals := r.steals,
    blocks := r.blocks, turnovers := r.turnovers,
    personalFouls := r.personalFouls, points := r.points }

/-- Field-for-field copy of a stats record into an `advanced` block. -/
def mkAdvanced (r : StatsRecord) : AdvancedBlock :=
  { games := r.games, minutesPlayed := r.minutesPlayed, per := r.per,
    tsPercent := r.tsPercent, threePAR := r.threePAR, ftr := r.ftr,
    offensiveRBPercent := r.offensiveRBPercent,
    defensiveRBPercent := r.defensiveRBPercent,
    totalRBPercent := r.totalRBPercent, assistPercent := r.assistPercent,
    stealPercent := r.stealPercent, blockPercent := r.blockPercent,
    turnoverPercent := r.turnoverPercent, usagePercent := r.usagePercent,
    offensiveWS := r.offensiveWS, defensiveWS := r.defensiveWS,
    winShares := r.winShares, winSharesPer := r.winSharesPer,
    offensiveBox := r.offensiveBox, defensiveBox := r.defensiveBox,
    box := r.box, vorp := r.vorp }

/-- A season entry of an `NbaPlayerStats` detail document.  A category
block equal to `none` models the empty object `{}` the entry is created
with (nbaStatsService.js lines 314-322). -/
structure SeasonEntry where
  season : Int
  team : String
  position : String
  age : ℚ
  totals : Option TotalsBlock
  advanced : Option AdvancedBlock
  lastUpdated : Nat
  deriving DecidableEq

/-- An `NbaPlayerStats` detail document: one per player, holding the two
phase-scoped arrays of season entries. -/
structure NbaDoc where
  playerId : String
  name : String
  regularSeasons : List SeasonEntry
  playoffs : List SeasonEntry
  lastUpdated : Nat
  deriving DecidableEq

/-- The `dataType` argument of `updatePlayerStats`. -/
inductive DataType where
  | totals
  | advanced
  deriving DecidableEq

/-- The fresh season entry created when no entry for the record's season
exists yet (nbaStatsService.js lines 314-322). -/
def freshSeasonEntry (r : StatsRecord) (team : String) (now : Nat) : SeasonEntry :=
  { season := r.season, team := team, position := r.position, age := r.age,
    totals := none, advanced := none, lastUpdated := now }

/-- The unconditional metadata overwrite applied to an existing season
entry (nbaStatsService.js lines 330-333). -/
def setMeta (e : SeasonEntry) (r : StatsRecord) (team : String) (now : Nat) : SeasonEntry :=
  { e with team := team, position := r.position, age := r.age, lastUpdated := now }

/-- Overwrite of the targeted category block only
(nbaStatsService.js lines 337-393). -/
def setCategory (e : SeasonEntry) (r : StatsRecord) (dt : DataType) : SeasonEntry :=
  match dt with
  | .totals => { e with totals := some (mkTotals r) }
  | .advanced => { e with advanced := some (mkAdvanced r) }

/-- The find-or-create step on a phase's seasons array:
`playerStats[seasonsArray].find(s => s.season === statsRecord.season)`
mutates the first entry with a matching season in place, and a missing
season is pushed onto the end of the array.  The category overwrite is
applied to whichever entry was selected. -/
def mergeSeasonList (l : List SeasonEntry) (r : StatsRecord) (team : String)
    (dt : DataType) (now : Nat) : List SeasonEntry :=
  match l with
  | [] => [setCategory (freshSeasonEntry r team now) r dt]
  | e :: rest =>
    if e.season = r.season then
      setCategory (setMeta e r team now) r dt :: rest
    else
      e :: mergeSeasonList rest r team dt now

/-- The arguments `updatePlayerStats` forwards to `updatePlayerReference`
when it invokes the summary linker (nbaStatsService.js line 417). -/
structure RefCall where
  playerId : String
  playerName : String
  team : String
  statsRecord : StatsRecord
  deriving DecidableEq

/-- Model of `updatePlayerStats` (nbaStatsService.js lines 289-424) acting
on the single detail document keyed by the player id: `store` is the
result of `NbaPlayerStats.findOne({ playerId })` and the returned document
is what `playerStats.save()` persists.  The second component records the
`updatePlayerReference` invocation, made exactly when
`dataType === 'totals' && !isPlayoffs` (line 416), with its arguments. -/
def updatePlayerStats (store : Option NbaDoc) (playerId playerName team : String)
    (r : StatsRecord) (isPlayoffs : Bool) (dt : DataType) (now : Nat) :
    NbaDoc × Option RefCall :=
  let doc : NbaDoc :=
    match store with
    | none =>
      { playerId := playerId, name := playerName,
        regularSeasons := [], playoffs := [], lastUpdated := now }
    | some d => d
  let doc2 : NbaDoc :=
    if isPlayoffs then
      { doc with playoffs := mergeSeasonList doc.playoffs r team dt now,
                 lastUpdated := now }
    else
      { doc with regularSeasons := mergeSeasonList doc.regularSeasons r team dt now,
                 lastUpdated := now }
  let refCall : Option RefCall :=
    if dt = DataType.totals ∧ isPlayoffs = false then
      some { playerId := playerId, playerName := playerName, team := team,
             statsRecord := r }
    else none
  (doc2, refCall)

theorem setMeta_season (e : SeasonEntry) (r : StatsRecord) (team : String)
    (now : Nat) : (setMeta e r team now).season = e.season := rfl

theorem setCategory_season (e : SeasonEntry) (r : StatsRecord) (dt : DataType) :
    (setCategory e r dt).season = e.season := by
  cases dt <;> rfl

/-- Merging into a list whose first season match is `e` rewrites exactly
that entry (metadata plus the targeted category) and nothing else. -/
theorem mergeSeasonList_found (r : StatsRecord) (team : String) (dt : DataType)
    (now : Nat) (l₁ l₂ : List SeasonEntry) (e : SeasonEntry)
    (hfirst : ∀ x ∈ l₁, x.season ≠ r.season) (he : e.season = r.season) :
    mergeSeasonList (l₁ ++ e :: l₂) r team dt now
      = l₁ ++ setCategory (setMeta e r team now) r dt :: l₂ := by
  induction l₁ with
  | nil => simp [mergeSeasonList, he]
  | cons x xs ih =>
      have hx : x.season ≠ r.season := hfirst x (by simp)
      have ih2 := ih (fun y hy => hfirst y (by simp [hy]))
      simp [mergeSeasonList, hx, ih2]

/-- Merging into a list holding no entry for the record's season appends a
fresh entry at the end and leaves all existing entries untouched. -/
theorem mergeSeasonList_absent (r : StatsRecord) (team : String) (dt : DataType)
    (now : Nat) (l : List SeasonEntry) (h : ∀ x ∈ l, x.season ≠ r.season) :
    mergeSeasonList l r team dt now
      = l ++ [setCategory (freshSeasonEntry r team now) r dt] := by
  induction l with
  | nil => rfl
  | cons x xs ih =>
      have hx : x.season ≠ r.season := h x (by simp)
      have ih2 := ih (fun y hy => h y (by simp [hy]))
      simp [mergeSeasonList, hx, ih2]

theorem merge_step_idem (e : SeasonEntry) (r : StatsRecord) (team : String)
    (dt : DataType) (now : Nat) :
    setCategory (setMeta (setCategory (setMeta e r team now) r dt) r team now) r dt
      = setCategory (setMeta e r team now) r dt := by
  cases dt <;> rfl

theorem fresh_step_idem (r : StatsRecord) (team : String) (dt : DataType)
    (now : Nat) :
    setCategory (setMeta (setCategory (freshSeasonEntry r team now) r dt) r team now) r dt
      = setCategory (freshSeasonEntry r team now) r dt := by
  cases dt <;> rfl

/-- Applying the find-or-create merge twice with the same arguments gives
the same seasons array as applying it once. -/
theorem mergeSeasonList_idem (l : List SeasonEntry) (r : StatsRecord)
    (team : String) (dt : DataType) (now : Nat) :
    mergeSeasonList (mergeSeasonList l r team dt now) r team dt now
      = mergeSeasonList l r team dt now := by
  induction l with
  | nil =>
      have hs : (setCategory (freshSeasonEntry r team now) r dt).season = r.season := by
        cases dt <;> rfl
      simp [mergeSeasonList, hs, fresh_step_idem]
  | cons e rest ih =>
      by_cases h : e.season = r.season
      · have hs : (setCategory (setMeta e r team now) r dt).season = r.season := by
          rw [setCategory_season, setMeta_season, h]
        simp [mergeSeasonList, h, hs, merge_step_idem]
      · simp [mergeSeasonList, h, ih]

/-- C1: merging one category into a season entry that already holds the
sibling category overwrites only the targeted category block and the
season metadata (team, position, age, lastUpdated) of the matched entry,
leaves every other entry and the other phase's array untouched, and in
particular an `advanced` merge preserves the stored `totals` block exactly
(and a `totals` merge preserves the `advanced` block). -/
theorem updatePlayerStats_category_isolation
    (doc : NbaDoc) (pid pname team : String) (r : StatsRecord)
    (isPlayoffs : Bool) (dt : DataType) (now : Nat)
    (l₁ l₂ : List SeasonEntry) (e : SeasonEntry)
    (hfirst : ∀ x ∈ l₁, x.season ≠ r.season) (he : e.season = r.season)
    (harr : (if isPlayoffs then doc.playoffs else doc.regularSeasons) = l₁ ++ e :: l₂) :
    (if isPlayoffs
      then (updatePlayerStats (some doc) pid pname team r isPlayoffs dt now).1.playoffs
      else (updatePlayerStats (some doc) pid pname team r isPlayoffs dt now).1.regularSeasons)
        = l₁ ++ setCategory (setMeta e r team now) r dt :: l₂
    ∧ (if isPlayoffs
      then (updatePlayerStats (some doc) pid pname team r isPlayoffs dt now).1.regularSeasons
              = doc.regularSeasons
      else (updatePlayerStats (some doc) pid pname team r isPlayoffs dt now).1.playoffs
              = doc.playoffs)
    ∧ (setCategory (setMeta e r team now) r DataType.advanced).totals = e.totals
    ∧ (setCategory (setMeta e r team now) r DataType.totals).advanced = e.advanced := by
  cases isPlayoffs
  · simp only [Bool.false_eq_true, if_false] at harr ⊢
    refine ⟨?_, rfl, rfl, rfl⟩
    simp only [updatePlayerStats, harr]
    exact mergeSeasonList_found r team dt now l₁ l₂ e hfirst he
  · simp only [if_true] at harr ⊢
    refine ⟨?_, rfl, rfl, rfl⟩
    simp only [updatePlayerStats, harr]
    exact mergeSeasonList_found r team dt now l₁ l₂ e hfirst he

def recAdv : StatsRecord :=
  { playerId := "p1", playerName := "P One", season := 2024, team := "LAL",
    id := 3, position := "PG", age := 30, games := 50, per := 20 }

def tBlock0 : TotalsBlock := mkTotals { games := 50, points := 1000 }

def entry0 : SeasonEntry :=
  { season := 2024, team := "BOS", position := "PG", age := 29,
    totals := some tBlock0, advanced := none, lastUpdated := 5 }

def doc0 : NbaDoc :=
  { playerId := "p1", name := "P One", regularSeasons := [entry0],
    playoffs := [], lastUpdated := 5 }

/-- Witness for C1: a concrete advanced-category merge into a season entry
holding a totals block leaves that totals block unchanged. -/
theorem updatePlayerStats_category_isolation_witness :
    (updatePlayerStats (some doc0) "p1" "P One" "LAL" recAdv false DataType.advanced 7).1.regularSeasons
        = [setCategory (setMeta entry0 recAdv "LAL" 7) recAdv DataType.advanced]
    ∧ (setCategory (setMeta entry0 recAdv "LAL" 7) recAdv DataType.advanced).totals
        = some tBlock0 := by
  have h := updatePlayerStats_category_isolation doc0 "p1" "P One" "LAL" recAdv
    false DataType.advanced 7 [] [] entry0 (by simp) (by decide) (by decide)
  exact ⟨by simpa using h.1, h.2.2.1⟩

/-- C2: running the season stat merger twice with identical input for the
same (player, season, phase, category) yields a stored detail document
identical to running it once; the second run updates the entry created or
updated by the first in place and creates no duplicate. -/
theorem updatePlayerStats_idempotent (store : Option NbaDoc)
    (pid pname team : String) (r : StatsRecord) (isPlayoffs : Bool)
    (dt : DataType) (now : Nat) :
    updatePlayerStats
        (some (updatePlayerStats store pid pname team r isPlayoffs dt now).1)
        pid pname team r isPlayoffs dt now
      = updatePlayerStats store pid pname team r isPlayoffs dt now := by
  cases store with
  | none =>
      cases isPlayoffs <;>
        simp [updatePlayerStats, mergeSeasonList_idem]
  | some d =>
      cases isPlayoffs <;>
        simp [updatePlayerStats, mergeSeasonList_idem]

/-- `playerRecords.find(record => record.team && record.team.includes('TM'))`
of `processPlayerGroup` (nbaStatsService.js lines 226-228). -/
def findAggregate (records : List StatsRecord) : Option StatsRecord :=
  records.find? (fun rec => rec.team != "" && hasTM rec.team)

/-- `playerRecords.reduce((prev, current) => (prev.games > current.games) ?
prev : current)` (nbaStatsService.js lines 235-237): keeps the current
accumulator only when it has strictly more games, so ties go to the later
record. -/
def maxGamesRecord (head : StatsRecord) (rest : List StatsRecord) : StatsRecord :=
  rest.foldl (fun prev cur => if prev.games > cur.games then prev else cur) head

/-- Head of `teamRecords.sort((a, b) => b.id - a.id)` (nbaStatsService.js
line 247): since the sort is stable, the head is the first record
attaining the maximal id, which this fold computes directly. -/
def firstMaxId (head : StatsRecord) (rest : List StatsRecord) : StatsRecord :=
  rest.foldl (fun acc cur => if cur.id > acc.id then cur else acc) head

/-- The resolved tuple `processPlayerGroup` passes on to
`updatePlayerStats`; `team` is `none` when `finalTeam` stays `null`. -/
structure Resolved where
  playerId : String
  playerName : String
  team : Option String
  statsRecord : StatsRecord
  deriving DecidableEq

/-- Model of `processPlayerGroup` (nbaStatsService.js lines 209-276)
restricted to its pure resolution result: which record becomes the
statistics source and which team becomes the current team. -/
def processPlayerGroup (records : List StatsRecord) : Option Resolved :=
  match records with
  | [] => none
  | r0 :: rest =>
    match rest with
    | [] =>
      some { playerId := r0.playerId, playerName := r0.playerName,
             team := some r0.team, statsRecord := r0 }
    | r1 :: rs =>
      let statsRecord :=
        match findAggregate (r0 :: r1 :: rs) with
        | some agg => agg
        | none => maxGamesRecord r0 (r1 :: rs)
      let teamRecords := (r0 :: r1 :: rs).filter (fun rec => !(hasTM rec.team))
      let finalTeam : Option String :=
        match teamRecords with
        | [] => none
        | t0 :: ts => some (firstMaxId t0 ts).team
      some { playerId := r0.playerId, playerName := r0.playerName,
             team := finalTeam, statsRecord := statsRecord }

theorem maxGamesRecord_spec (rest : List StatsRecord) : ∀ head : StatsRecord,
    maxGamesRecord head rest ∈ head :: rest
    ∧ head.games ≤ (maxGamesRecord head rest).games
    ∧ ∀ x ∈ rest, x.games ≤ (maxGamesRecord head rest).games := by
  induction rest with
  | nil => intro head; simp [maxGamesRecord]
  | cons c cs ih =>
      intro head
      have hstep : maxGamesRecord head (c :: cs)
          = maxGamesRecord (if head.games > c.games then head else c) cs := rfl
      obtain ⟨hmem, hacc, hall⟩ := ih (if head.games > c.games then head else c)
      rw [hstep]
      by_cases hgt : head.games > c.games
      · rw [if_pos hgt] at hmem hacc hall ⊢
        refine ⟨?_, hacc, ?_⟩
        · rcases List.mem_cons.mp hmem with h | h
          · exact List.mem_cons.mpr (Or.inl h)
          · exact List.mem_cons.mpr (Or.inr (List.mem_cons.mpr (Or.inr h)))
        · intro x hx
          rcases List.mem_cons.mp hx with h | h
          · exact h ▸ le_trans (le_of_lt hgt) hacc
          · exact hall x h
      · rw [if_neg hgt] at hmem hacc hall ⊢
        have hle : head.games ≤ c.games := le_of_not_lt hgt
        refine ⟨?_, le_trans hle hacc, ?_⟩
        · rcases List.mem_cons.mp hmem with h | h
          · exact List.mem_cons.mpr (Or.inr (List.mem_cons.mpr (Or.inl h)))
          · exact List.mem_cons.mpr (Or.inr (List.mem_cons.mpr (Or.inr h)))
        · intro x hx
          rcases List.mem_cons.mp hx with h | h
          · exact h ▸ hacc
          · exact hall x h

theorem firstMaxId_spec (rest : List StatsRecord) : ∀ head : StatsRecord,
    firstMaxId head rest ∈ head :: rest
    ∧ head.id ≤ (firstMaxId head rest).id
    ∧ ∀ x ∈ rest, x.id ≤ (firstMaxId head rest).id := by
  induction rest with
  | nil => intro head; simp [firstMaxId]
  | cons c cs ih =>
      intro head
      have hstep : firstMaxId head (c :: cs)
          = firstMaxId (if c.id > head.id then c else head) cs := rfl
      obtain ⟨hmem, hacc, hall⟩ := ih (if c.id > head.id then c else head)
      rw [hstep]
      by_cases hgt : c.id > head.id
      · rw [if_pos hgt] at hmem hacc hall ⊢
        refine ⟨?_, le_trans (le_of_lt hgt) hacc, ?_⟩
        · rcases List.mem_cons.mp hmem with h | h
          · exact List.mem_cons.mpr (Or.inr (List.mem_cons.mpr (Or.inl h)))
          · exact List.mem_cons.mpr (Or.inr (List.mem_cons.mpr (Or.inr h)))
        · intro x hx
          rcases List.mem_cons.mp hx with h | h
          · exact h ▸ hacc
          · exact hall x h
      · rw [if_neg hgt] at hmem hacc hall ⊢
        have hle : c.id ≤ head.id := le_of_not_lt hgt
        refine ⟨?_, hacc, ?_⟩
        · rcases List.mem_cons.mp hmem with h | h
          · exact List.mem_cons.mpr (Or.inl h)
          · exact List.mem_cons.mpr (Or.inr (List.mem_cons.mpr (Or.inr h)))
        · intro x hx
          rcases List.mem_cons.mp hx with h | h
          · exact h ▸ le_trans hle hacc
          · exact hall x h

/-- C3: for a group with more than one record the resolver picks the first
aggregate record (team containing "TM") as statistics source when one
exists, otherwise a record attaining the maximum games played (and the
unique strictly-most-games record when there is one); independently, the
current team is the team of a non-aggregate record attaining the highest
provider-internal id. -/
theorem processPlayerGroup_trade_resolution (r0 r1 : StatsRecord)
    (rs : List StatsRecord) :
    ∃ res, processPlayerGroup (r0 :: r1 :: rs) = some res
    ∧ (∀ agg, findAggregate (r0 :: r1 :: rs) = some agg →
        res.statsRecord = agg ∧ hasTM agg.team = true)
    ∧ (findAggregate (r0 :: r1 :: rs) = none →
        res.statsRecord ∈ r0 :: r1 :: rs
        ∧ (∀ x ∈ r0 :: r1 :: rs, x.games ≤ res.statsRecord.games)
        ∧ ∀ u ∈ r0 :: r1 :: rs,
            (∀ v ∈ r0 :: r1 :: rs, v ≠ u → v.games < u.games) →
            res.statsRecord = u)
    ∧ (∀ t0 ts,
        (r0 :: r1 :: rs).filter (fun rec => !(hasTM rec.team)) = t0 :: ts →
        ∃ m ∈ t0 :: ts, res.team = some m.team ∧ hasTM m.team = false
          ∧ ∀ x ∈ t0 :: ts, x.id ≤ m.id) := by
  refine ⟨_, rfl, ?_, ?_, ?_⟩
  · intro agg hagg
    have hfind := List.find?_some hagg
    exact ⟨by simp only [hagg], (Bool.and_eq_true _ _ |>.mp hfind).2⟩
  · intro hnone
    simp only [hnone]
    obtain ⟨hmem, hhead, hall⟩ := maxGamesRecord_spec (r1 :: rs) r0
    have hmax : ∀ x ∈ r0 :: r1 :: rs, x.games ≤ (maxGamesRecord r0 (r1 :: rs)).games := by
      intro x hx
      rcases List.mem_cons.mp hx with h | h
      · exact h ▸ hhead
      · exact hall x h
    refine ⟨hmem, hmax, ?_⟩
    intro u hu huniq
    by_contra hne
    have h1 := huniq (maxGamesRecord r0 (r1 :: rs)) hmem hne
    have h2 := hmax u hu
    exact absurd (lt_of_le_of_lt h2 h1) (lt_irrefl _)
  · intro t0 ts hfilter
    simp only [hfilter]
    obtain ⟨hmem, -, hall⟩ := firstMaxId_spec ts t0
    refine ⟨firstMaxId t0 ts, hmem, rfl, ?_, ?_⟩
    · have hmemF : firstMaxId t0 ts ∈ (r0 :: r1 :: rs).filter (fun rec => !(hasTM rec.team)) := by
        rw [hfilter]; exact hmem
      have := (List.mem_filter.mp hmemF).2
      simpa using this
    · intro x hx
      rcases List.mem_cons.mp hx with h | h
      · exact h ▸ (firstMaxId_spec ts t0).2.1
      · exact hall x h

def recTM : StatsRecord :=
  { playerId := "x1", playerName := "X", season := 2024, team := "2TM",
    id := 1, games := 70, points := 700 }

def recTeamA : StatsRecord :=
  { playerId := "x1", playerName := "X", season := 2024, team := "A",
    id := 5, games := 40 }

def recTeamB : StatsRecord :=
  { playerId := "x1", playerName := "X", season := 2024, team := "B",
    id := 9, games := 30 }

/-- Witness for C3: on the spec's concrete input the "2TM" record is the
statistics source and team "B" (highest id among non-aggregate records)
is the current team. -/
theorem processPlayerGroup_trade_resolution_witness :
    ∃ res, processPlayerGroup [recTM, recTeamA, recTeamB] = some res
      ∧ res.statsRecord = recTM ∧ res.team = some "B" := by
  obtain ⟨res, hres, haggP, -, hteamP⟩ :=
    processPlayerGroup_trade_resolution recTM recTeamA [recTeamB]
  have h1 : findAggregate [recTM, recTeamA, recTeamB] = some recTM := by decide
  have h2 : [recTM, recTeamA, recTeamB].filter (fun rec => !(hasTM rec.team))
      = [recTeamA, recTeamB] := by decide
  obtain ⟨hstats, -⟩ := haggP recTM h1
  obtain ⟨m, hm, hmteam, -, hbound⟩ := hteamP recTeamA [recTeamB] h2
  have h9 : recTeamB.id ≤ m.id := hbound recTeamB (by simp)
  rcases List.mem_cons.mp hm with hEq | hIn
  · subst hEq
    exact absurd h9 (by decide)
  · have hEq : m = recTeamB := by simpa using hIn
    subst hEq
    exact ⟨res, hres, hstats, hmteam⟩

/-- A JavaScript value that is either a string or a number, the possible
results of `convertTeamFormat`. -/
inductive JsVal where
  | str (s : String)
  | num (n : Int)
  deriving DecidableEq

/-- Template-literal interpolation of a `JsVal` (numbers render in
decimal). -/
def jsValToString : JsVal → String
  | .str s => s
  | .num n => toString n

/-- The `teamMap` table of `convertTeamFormat` (nbaStatsUtils.js lines
74-108): abbreviation, full name, internal id, in source order. -/
def teamMap : List (String × String × Int) :=
  [("ATL", "Atlanta Hawks", 1), ("BOS", "Boston Celtics", 2),
   ("BRK", "Brooklyn Nets", 3), ("BKN", "Brooklyn Nets", 3),
   ("CHO", "Charlotte Hornets", 4), ("CHA", "Charlotte Hornets", 4),
   ("CHI", "Chicago Bulls", 5), ("CLE", "Cleveland Cavaliers", 6),
   ("DAL", "Dallas Mavericks", 7), ("DEN", "Denver Nuggets", 8),
   ("DET", "Detroit Pistons", 9), ("GSW", "Golden State Warriors", 10),
   ("HOU", "Houston Rockets", 11), ("IND", "Indiana Pacers", 12),
   ("LAC", "Los Angeles Clippers", 13), ("LAL", "Los Angeles Lakers", 14),
   ("MEM", "Memphis Grizzlies", 15), ("MIA", "Miami Heat", 16),
   ("MIL", "Milwaukee Bucks", 17), ("MIN", "Minnesota Timberwolves", 18),
   ("NOP", "New Orleans Pelicans", 19), ("NYK", "New York Knicks", 20),
   ("OKC", "Oklahoma City Thunder", 21), ("ORL", "Orlando Magic", 22),
   ("PHI", "Philadelphia 76ers", 23), ("PHO", "Phoenix Suns", 24),
   ("PHX", "Phoenix Suns", 24), ("POR", "Portland Trail Blazers", 25),
   ("SAC", "Sacramento Kings", 26), ("SAS", "San Antonio Spurs", 27),
   ("TOR", "Toronto Raptors", 28), ("UTA", "Utah Jazz", 29),
   ("WAS", "Washington Wizards", 30)]

/-- Model of `convertTeamFormat` (nbaStatsUtils.js lines 73-131): first
the abbreviation path (guarded by truthiness and length at most 3), then
the case-insensitive full-name search, falling back to the original
string. -/
def convertTeamFormat (teamName : String) (format : String) : JsVal :=
  let upper := teamName.toUpper
  let abbrHit : Option (String × String × Int) :=
    if teamName != "" && teamName.length ≤ 3 then
      teamMap.find? (fun t => t.1 == upper)
    else none
  match abbrHit with
  | some t =>
    if format = "full" then .str t.2.1
    else if format = "id" then .num t.2.2
    else .str upper
  | none =>
    match teamMap.find? (fun t => t.2.1.toLower == teamName.toLower) with
    | some t =>
      if format = "abbr" then .str t.1
      else if format = "id" then .num t.2.2
      else .str t.2.1
    | none => .str teamName

/-- JavaScript division on stat values: `none` models the non-finite
result (`NaN` or `Infinity`) produced by a zero divisor. -/
def jsDiv (a b : ℚ) : Option ℚ := if b = 0 then none else some (a / b)

/-- The per-game block returned by `calculatePerGameStats`
(nbaStatsUtils.js lines 20-60). -/
structure PerGameBlock where
  minutes : ℚ
  points : ℚ
  rebounds : ℚ
  assists : ℚ
  steals : ℚ
  blocks : ℚ
  turnovers : ℚ
  fg_made : ℚ
  fg_att : ℚ
  fg_pct : ℚ
  three_made : ℚ
  three_att : ℚ
  three_pct : ℚ
  ft_made : ℚ
  ft_att : ℚ
  ft_pct : ℚ
  deriving DecidableEq

/-- The all-zero block returned by the `games == 0` guard. -/
def zeroPerGame : PerGameBlock :=
  { minutes := 0, points := 0, rebounds := 0, assists := 0, steals := 0,
    blocks := 0, turnovers := 0, fg_made := 0, fg_att := 0, fg_pct := 0,
    three_made := 0, three_att := 0, three_pct := 0, ft_made := 0,
    ft_att := 0, ft_pct := 0 }

/-- Model of `calculatePerGameStats` (nbaStatsUtils.js lines 20-60).  The
JavaScript guard `!gamesPlayed || gamesPlayed === 0` collapses to
`gamesPlayed = 0` on finite numeric input, so every division below it has
a nonzero divisor. -/
def calculatePerGameStats (totals : TotalsBlock) (gamesPlayed : ℚ) : PerGameBlock :=
  if gamesPlayed = 0 then zeroPerGame
  else
    { minutes := totals.minutesPg,
      points := totals.points / gamesPlayed,
      rebounds := totals.totalRb / gamesPlayed,
      assists := totals.assists / gamesPlayed,
      steals := totals.steals / gamesPlayed,
      blocks := totals.blocks / gamesPlayed,
      turnovers := totals.turnovers / gamesPlayed,
      fg_made := totals.fieldGoals / gamesPlayed,
      fg_att := totals.fieldAttempts / gamesPlayed,
      fg_pct := totals.fieldPercent,
      three_made := totals.threeFg / gamesPlayed,
      three_att := totals.threeAttempts / gamesPlayed,
      three_pct := totals.threePercent,
      ft_made := totals.ft / gamesPlayed,
      ft_att := totals.ftAttempts / gamesPlayed,
      ft_pct := totals.ftPercent }

/-- The `Player` summary row written by `updatePlayerReference`
(nbaStatsService.js lines 457-474). -/
structure PlayerRow where
  playerId : String
  teamId : String
  league : String
  name : String
  position : String
  age : ℚ
  nbaStatsRef : String
  statsGamesPlayed : ℚ
  statsGamesStarted : ℚ
  sportStats : List (String × ℚ)
  lastUpdated : Nat
  deriving DecidableEq

/-- `updatePlayerReference` together with its intermediate per-game
computations: the function computes `ppg` .. `spg` by plain division
(nbaStatsService.js lines 442-446) but never stores them; the row it
upserts carries the raw season totals in `sportStats`. -/
structure RefComputation where
  ppg : Option ℚ
  rpg : Option ℚ
  apg : Option ℚ
  bpg : Option ℚ
  spg : Option ℚ
  row : PlayerRow
  deriving DecidableEq

/-- Model of `updatePlayerReference` (nbaStatsService.js lines 436-479). -/
def updatePlayerReference (playerId playerName team : String) (r : StatsRecord)
    (now : Nat) : RefComputation :=
  let teamId := convertTeamFormat team "id"
  { ppg := jsDiv r.points r.games,
    rpg := jsDiv r.totalRb r.games,
    apg := jsDiv r.assists r.games,
    bpg := jsDiv r.blocks r.games,
    spg := jsDiv r.steals r.games,
    row := { playerId := "nba_" ++ playerId,
             teamId := "nba_" ++ jsValToString teamId,
             league := "NBA", name := playerName, position := r.position,
             age := r.age, nbaStatsRef := playerId,
             statsGamesPlayed := r.games, statsGamesStarted := r.gamesStarted,
             sportStats := [("points", r.points), ("rebounds", r.totalRb),
                            ("assists", r.assists), ("blocks", r.blocks),
                            ("steals", r.steals)],
             lastUpdated := now } }

def zeroGamesRec : StatsRecord :=
  { playerId := "z1", playerName := "Z Player", season := 2025, team := "LAL",
    games := 0, points := 10, totalRb := 4, assists := 3, blocks := 2,
    steals := 1 }

/-- C4 evaluation at the failing input: for a record with `games == 0` the
summary row written by `updatePlayerReference` holds the raw season totals
(points 10, not a guarded per-game 0), the linker's own per-game division
is unguarded and non-finite, and the guarded `calculatePerGameStats` —
which the claim says produces the written figures — would have returned
all zeros but is never invoked by the linker. -/
theorem updatePlayerReference_zero_games_eval :
    (updatePlayerReference "z1" "Z Player" "LAL" zeroGamesRec 9).row.sportStats
        = [("points", 10), ("rebounds", 4), ("assists", 3), ("blocks", 2),
           ("steals", 1)]
    ∧ (updatePlayerReference "z1" "Z Player" "LAL" zeroGamesRec 9).row.statsGamesPlayed = 0
    ∧ (updatePlayerReference "z1" "Z Player" "LAL" zeroGamesRec 9).ppg = none
    ∧ calculatePerGameStats (mkTotals zeroGamesRec) zeroGamesRec.games = zeroPerGame := by
  refine ⟨rfl, rfl, rfl, ?_⟩
  have : zeroGamesRec.games = 0 := rfl
  rw [calculatePerGameStats, if_pos this]

def nbaCurrentSeason : Int := 2025

def histRec : StatsRecord :=
  { playerId := "h1", playerName := "H Player", season := 2020, team := "LAL",
    games := 60, points := 900 }

/-- Counterexample to C5: a totals-category, regular-phase merge for the
historical season 2020 (the configured current season is 2025) still
invokes `updatePlayerReference` — the code's guard checks only the
category and the phase, never the season. -/
theorem updatePlayerReference_invoked_for_historical_season :
    (updatePlayerStats none "h1" "H Player" "LAL" histRec false DataType.totals 3).2
        = some { playerId := "h1", playerName := "H Player", team := "LAL",
                 statsRecord := histRec }
    ∧ histRec.season ≠ nbaCurrentSeason := by
  exact ⟨rfl, by decide⟩

/-- C5 (amended): `updatePlayerStats` invokes `updatePlayerReference`,
with the merge's own player, team and stats record, exactly when the merge
is totals-category and regular-phase — for every season, historical ones
included; playoff and advanced-category merges never invoke it. -/
theorem updatePlayerStats_reference_invocation (store : Option NbaDoc)
    (pid pname team : String) (r : StatsRecord) (isPlayoffs : Bool)
    (dt : DataType) (now : Nat) :
    ((updatePlayerStats store pid pname team r isPlayoffs dt now).2
        = some { playerId := pid, playerName := pname, team := team,
                 statsRecord := r }
      ↔ (dt = DataType.totals ∧ isPlayoffs = false))
    ∧ ((updatePlayerStats store pid pname team r isPlayoffs dt now).2 = none
      ↔ ¬(dt = DataType.totals ∧ isPlayoffs = false)) := by
  cases store <;> cases isPlayoffs <;> cases dt <;>
    simp [updatePlayerStats]

/-- One response of the paginated players endpoint as seen by
`fetchAllPlayers` (eplService.js lines 150-195): a thrown transport error,
a response without the expected `response` array, or a page of records. -/
inductive PageResp (α : Type) where
  | fail
  | invalid
  | ok (data : List α)
  deriving DecidableEq

/-- A provider of paginated responses: `total` is the `paging.total` hint
every successful response reports, and the response to a request for page
`p` carries `paging.current = p`. -/
structure Provider (α : Type) where
  total : Nat
  pages : Nat → PageResp α

/-- The recursion of `fetchAllPlayers`, with an explicit fuel bound (the
JavaScript recursion needs none because an honest provider lets it
advance from page 1 to at most page `total`; the top-level wrapper below
supplies fuel `total + 1`, which the theorems show is never exhausted).
Returns the result — `Except.error` models the rethrown page error when
nothing was collected — together with the list of pages requested, in
order.  A failed page with data already collected degrades to a partial
result (lines 188-192); an invalid response returns the collected data
(lines 160-163); otherwise the page's records are appended and the next
page is requested while `paging.current < paging.total` (line 171). -/
def fetchGo {α : Type} (prov : Provider α) :
    Nat → Nat → List α → Except Unit (List α) × List Nat
  | 0, _, acc => (Except.ok acc, [])
  | fuel + 1, page, acc =>
    match prov.pages page with
    | .fail => (if acc.isEmpty then Except.error () else Except.ok acc, [page])
    | .invalid => (Except.ok acc, [page])
    | .ok data =>
      let acc2 := acc ++ data
      if page < prov.total then
        let r := fetchGo prov fuel (page + 1) acc2
        (r.1, page :: r.2)
      else (Except.ok acc2, [page])

/-- Model of `fetchAllPlayers(league, season)` with its default arguments
`page = 1`, `playersData = []`. -/
def fetchAllPlayers {α : Type} (prov : Provider α) :
    Except Unit (List α) × List Nat :=
  fetchGo prov (prov.total + 1) 1 []

/-- The records of page `i` when that page succeeds. -/
def okData {α : Type} (prov : Provider α) (i : Nat) : List α :=
  match prov.pages i with
  | .ok d => d
  | _ => []

/-- The records collected from pages `page`, ..., `k - 1`. -/
def collectSpan {α : Type} (prov : Provider α) (page k : Nat) : List α :=
  ((List.range' page (k - page)).map (okData prov)).flatten

theorem collectSpan_self {α : Type} (prov : Provider α) (page : Nat) :
    collectSpan prov page page = [] := by
  simp [collectSpan]

theorem collectSpan_step {α : Type} (prov : Provider α) (page k : Nat)
    (hlt : page < k) (d : List α) (hd : prov.pages page = PageResp.ok d) :
    collectSpan prov page k = d ++ collectSpan prov (page + 1) k := by
  have h1 : k - page = (k - (page + 1)) + 1 := by omega
  have h2 : okData prov page = d := by simp [okData, hd]
  rw [collectSpan, h1, List.range'_succ]
  simp [collectSpan, h2]

/-- Behaviour of the fetch recursion when pages `page .. k - 1` succeed
and page `k` fails within the paging range: all of `page .. k` are
requested, nothing beyond, and the collected records are returned when
nonempty, otherwise the error propagates. -/
theorem fetchGo_fail_spec {α : Type} (prov : Provider α) (k : Nat)
    (hk : k ≤ prov.total) (hfail : prov.pages k = PageResp.fail) :
    ∀ fuel page acc, page ≤ k → k - page < fuel →
    (∀ i, page ≤ i → i < k → ∃ d, prov.pages i = PageResp.ok d) →
    fetchGo prov fuel page acc
      = (if (acc ++ collectSpan prov page k).isEmpty then Except.error ()
         else Except.ok (acc ++ collectSpan prov page k),
         List.range' page (k - page + 1)) := by
  intro fuel
  induction fuel with
  | zero =>
      intro page acc hpk hfuel hok
      exact absurd hfuel (Nat.not_lt_zero _)
  | succ fuel ih =>
      intro page acc hpk hfuel hok
      rcases eq_or_lt_of_le hpk with heq | hlt
      · subst heq
        rw [collectSpan_self, List.append_nil, Nat.sub_self]
        simp [fetchGo, hfail]
      · obtain ⟨d, hd⟩ := hok page le_rfl hlt
        have hptotal : page < prov.total := lt_of_lt_of_le hlt hk
        have hrec := ih (page + 1) (acc ++ d) hlt (by omega)
          (fun i hi1 hi2 => hok i (by omega) hi2)
        have hspan := collectSpan_step prov page k hlt d hd
        have hrange : List.range' page (k - page + 1)
            = page :: List.range' (page + 1) (k - (page + 1) + 1) := by
          have h1 : k - page + 1 = (k - (page + 1) + 1) + 1 := by omega
          rw [h1, List.range'_succ]
        simp only [fetchGo, hd, if_pos hptotal, hrec, hspan, hrange,
          List.append_assoc]

/-- C6 (amended): if the first page succeeds and a later page within the
paging range fails, the fetcher requests exactly pages 1 .. k (nothing
past the failing page) and returns the records collected before the
failure when at least one record was collected; if no records were
collected before the failure, or the very first page fails, the error
propagates to the caller. -/
theorem fetchAllPlayers_partial_pagination {α : Type} :
    (∀ prov : Provider α, ∀ k, 2 ≤ k → k ≤ prov.total →
      (∀ i, 1 ≤ i → i < k → ∃ d, prov.pages i = PageResp.ok d) →
      prov.pages k = PageResp.fail →
      collectSpan prov 1 k ≠ [] →
      fetchAllPlayers prov
          = (Except.ok (collectSpan prov 1 k), List.range' 1 k)
        ∧ ∀ p ∈ (fetchAllPlayers prov).2, p ≤ k)
    ∧ (∀ prov : Provider α, ∀ k, 2 ≤ k → k ≤ prov.total →
      (∀ i, 1 ≤ i → i < k → ∃ d, prov.pages i = PageResp.ok d) →
      prov.pages k = PageResp.fail →
      collectSpan prov 1 k = [] →
      (fetchAllPlayers prov).1 = Except.error ())
    ∧ (∀ prov : Provider α, prov.pages 1 = PageResp.fail →
      (fetchAllPlayers prov).1 = Except.error ()) := by
  refine ⟨?_, ?_, ?_⟩
  · intro prov k h2 hk hok hfail hne
    have hmain := fetchGo_fail_spec prov k hk hfail (prov.total + 1) 1 []
      (by omega) (by omega) (fun i hi1 hi2 => hok i hi1 hi2)
    rw [List.nil_append] at hmain
    have hempty : (collectSpan prov 1 k).isEmpty = false := by
      cases hcs : collectSpan prov 1 k with
      | nil => exact absurd hcs hne
      | cons a l => rfl
    have hrange : k - 1 + 1 = k := by omega
    rw [hempty] at hmain
    simp only [Bool.false_eq_true, if_false, hrange] at hmain
    have hfa : fetchAllPlayers prov
        = (Except.ok (collectSpan prov 1 k), List.range' 1 k) := hmain
    refine ⟨hfa, ?_⟩
    intro p hp
    rw [hfa] at hp
    have := List.mem_range'_1.mp hp
    omega
  · intro prov k h2 hk hok hfail hemp
    have hmain := fetchGo_fail_spec prov k hk hfail (prov.total + 1) 1 []
      (by omega) (by omega) (fun i hi1 hi2 => hok i hi1 hi2)
    rw [List.nil_append, hemp] at hmain
    simp only [List.isEmpty_nil, if_true] at hmain
    have hfa : fetchAllPlayers prov = (Except.error (), List.range' 1 (k - 1 + 1)) := hmain
    rw [hfa]
  · intro prov hfail
    simp [fetchAllPlayers, fetchGo, hfail]

def wProv : Provider ℚ :=
  { total := 3,
    pages := fun p =>
      if p = 1 then .ok [10, 20] else if p = 2 then .fail else .ok [30] }

/-- Witness for C6: a 3-page sequence whose page 2 fails returns page 1's
records and requests pages 1 and 2 only. -/
theorem fetchAllPlayers_partial_pagination_witness :
    fetchAllPlayers wProv = (Except.ok [10, 20], [1, 2]) := by
  have h := (fetchAllPlayers_partial_pagination (α := ℚ)).1 wProv 2 (le_refl 2)
    (by decide)
    (by
      intro i h1 h2
      have : i = 1 := by omega
      subst this
      exact ⟨[10, 20], rfl⟩)
    rfl
    (by decide)
  have hspan : collectSpan wProv 1 2 = [10, 20] := rfl
  have hrange : List.range' 1 2 = [1, 2] := rfl
  rw [h.1, hspan, hrange]

def cexProv : Provider ℚ :=
  { total := 3,
    pages := fun p =>
      if p = 1 then .ok [] else if p = 2 then .fail else .ok [30] }

/-- Counterexample to C6 as stated: page 1 succeeds (with an empty record
set), page 2 fails — yet instead of returning the (empty) collection of
records gathered before the failure, the fetcher propagates the error,
because the salvage guard tests collected records, not collected pages. -/
theorem fetchAllPlayers_empty_first_page_cex :
    cexProv.pages 1 = PageResp.ok []
    ∧ cexProv.pages 2 = PageResp.fail
    ∧ (fetchAllPlayers cexProv).1 = Except.error () := by
  refine ⟨rfl, rfl, rfl⟩

/-- The league enable flags and run parameters accepted by
`updateSportsData` (updateService.js lines 77-84). -/
structure UpdateOptions where
  nba : Bool
  nfl : Bool
  epl : Bool
  nbaType : String
  nbaSeason : Int
  eplSeason : Int
  deriving DecidableEq

/-- The boolean each league service returns for its run; every service
catches its own exceptions and resolves to `false` on failure
(nbaStatsService.js lines 62-65, eplService.js lines 83-86), so an
outcome is always a boolean, never an escaping exception. -/
structure LeagueOutcomes where
  nbaResult : Bool
  nflResult : Bool
  eplResult : Bool
  deriving DecidableEq

/-- One `SystemInfo` upsert issued during an orchestrator cycle.  The
global entry carries only a timestamp; league entries carry the success
flag and the run duration, and the league-scoped (not season-scoped) one
additionally records the season. -/
structure LedgerEntry where
  key : String
  success : Option Bool
  duration : Option ℚ
  season : Option Int
  timestamp : Nat
  deriving DecidableEq

/-- Model of `logSeasonUpdate` (updateService.js lines 25-63): the
league-scoped entry followed by the league-and-season-scoped entry.  The
operation names used by the orchestrator ("NBA", "EPL") contain no
whitespace, so the `replace(/\s+/g, '')` in the key is the identity. -/
def logSeasonUpdate (operation : String) (success : Bool)
    (startTime endTime : Nat) (season : Int) : List LedgerEntry :=
  let duration : ℚ := ((endTime : ℚ) - (startTime : ℚ)) / 1000
  [{ key := "lastUpdate_" ++ operation, success := some success,
     duration := some duration, season := some season, timestamp := endTime },
   { key := "lastUpdate_" ++ operation ++ "_" ++ toString season,
     success := some success, duration := some duration, season := none,
     timestamp := endTime }]

/-- The wall-clock readings taken during a cycle, passed explicitly. -/
structure TimeParams where
  startTime : Nat
  nbaStart : Nat
  nbaEnd : Nat
  eplStart : Nat
  eplEnd : Nat
  endTime : Nat
  deriving DecidableEq

/-- The observable outcome of one `updateSportsData` cycle: the per-league
result flags of the returned object (`none` when the league was not
enabled), the sequence of league updates that actually ran, the
`SystemInfo` upserts issued in order, and the returned duration and
timestamp. -/
structure UpdateResults where
  nba : Option Bool
  nfl : Option Bool
  epl : Option Bool
  ranLeagues : List String
  ledger : List LedgerEntry
  duration : ℚ
  timestamp : Nat
  deriving DecidableEq

/-- The final `lastUpdateTime` upsert (updateService.js lines 133-142). -/
def globalLedgerEntry (endTime : Nat) : LedgerEntry :=
  { key := "lastUpdateTime", success := none, duration := none,
    season := none, timestamp := endTime }

/-- Model of `updateSportsData` (updateService.js lines 77-158): NBA, then
NFL, then EPL, each gated only on its enable flag; `logSeasonUpdate` runs
for NBA and EPL but not for NFL; the global entry is upserted at the end
of every cycle. -/
def updateSportsData (opts : UpdateOptions) (out : LeagueOutcomes)
    (tm : TimeParams) : UpdateResults :=
  { nba := if opts.nba then some out.nbaResult else none,
    nfl := if opts.nfl then some out.nflResult else none,
    epl := if opts.epl then some out.eplResult else none,
    ranLeagues :=
      (if opts.nba then ["NBA"] else []) ++ (if opts.nfl then ["NFL"] else [])
        ++ (if opts.epl then ["EPL"] else []),
    ledger :=
      (if opts.nba then
        logSeasonUpdate "NBA" out.nbaResult tm.nbaStart tm.nbaEnd opts.nbaSeason
       else [])
      ++ (if opts.epl then
        logSeasonUpdate "EPL" out.eplResult tm.eplStart tm.eplEnd opts.eplSeason
       else [])
      ++ [globalLedgerEntry tm.endTime],
    duration := ((tm.endTime : ℚ) - (tm.startTime : ℚ)) / 1000,
    timestamp := tm.endTime }

/-- C7: the set and order of league updates run depends only on the enable
flags — one league's failure (its service resolving to `false`) never
prevents the other enabled leagues from running — and each enabled league
gets its own service's boolean recorded, independent of the other
leagues' outcomes. -/
theorem updateSportsData_failure_isolation (opts : UpdateOptions)
    (out alt : LeagueOutcomes) (tm : TimeParams) :
    (updateSportsData opts out tm).ranLeagues
        = (updateSportsData opts alt tm).ranLeagues
    ∧ (opts.nba = true → (updateSportsData opts out tm).nba = some out.nbaResult)
    ∧ (opts.nfl = true → (updateSportsData opts out tm).nfl = some out.nflResult)
    ∧ (opts.epl = true → (updateSportsData opts out tm).epl = some out.eplResult)
    ∧ (opts.nba = false → (updateSportsData opts out tm).nba = none)
    ∧ (opts.nfl = false → (updateSportsData opts out tm).nfl = none)
    ∧ (opts.epl = false → (updateSportsData opts out tm).epl = none) := by
  obtain ⟨nba, nfl, epl, nbaType, nbaSeason, eplSeason⟩ := opts
  cases nba <;> cases nfl <;> cases epl <;>
    simp [updateSportsData]

def optsAll : UpdateOptions :=
  { nba := true, nfl := true, epl := true, nbaType := "regular",
    nbaSeason := 2025, eplSeason := 2024 }

def outMidFail : LeagueOutcomes :=
  { nbaResult := true, nflResult := false, eplResult := true }

def tm0 : TimeParams :=
  { startTime := 0, nbaStart := 1, nbaEnd := 2, eplStart := 3, eplEnd := 4,
    endTime := 5 }

/-- Witness for C7: with all leagues enabled and the middle league (NFL)
failing, all three leagues run in order and each flag reflects its own
league's outcome. -/
theorem updateSportsData_failure_isolation_witness :
    (updateSportsData optsAll outMidFail tm0).ranLeagues = ["NBA", "NFL", "EPL"]
    ∧ (updateSportsData optsAll outMidFail tm0).nba = some true
    ∧ (updateSportsData optsAll outMidFail tm0).nfl = some false
    ∧ (updateSportsData optsAll outMidFail tm0).epl = some true := by
  obtain ⟨-, h1, h2, h3, -⟩ :=
    updateSportsData_failure_isolation optsAll outMidFail outMidFail tm0
  exact ⟨rfl, h1 rfl, h2 rfl, h3 rfl⟩

/-- Counterexample to C8 as stated: with every league enabled, NFL runs,
yet no ledger entry for NFL (neither league-scoped nor season-scoped) is
ever upserted — `logSeasonUpdate` is only invoked for NBA and EPL. -/
theorem updateSportsData_no_nfl_ledger :
    "NFL" ∈ (updateSportsData optsAll outMidFail tm0).ranLeagues
    ∧ ∀ e ∈ (updateSportsData optsAll outMidFail tm0).ledger,
        e.key ≠ "lastUpdate_NFL" ∧ e.key ≠ "lastUpdate_NFL_2024" := by
  refine ⟨by decide, ?_⟩
  intro e he
  simp only [updateSportsData, logSeasonUpdate, globalLedgerEntry, optsAll,
    outMidFail, tm0, if_true, List.mem_append, List.mem_cons,
    List.not_mem_nil, or_false, List.mem_singleton] at he
  rcases he with ((h | h) | (h | h)) | h <;> subst h <;>
    exact ⟨by decide, by decide⟩

/-- C8 (amended): every cycle ends with exactly one global
`lastUpdateTime` upsert, carrying the cycle's end timestamp, as the last
write of the cycle; for NBA and EPL — the season-capable leagues — an
enabled run upserts both the league-scoped and the league-plus-season
entry, each carrying the success flag, timestamp and duration; no other
writes happen, so the NFL run produces no ledger entries at all. -/
theorem updateSportsData_ledger_spec (opts : UpdateOptions)
    (out : LeagueOutcomes) (tm : TimeParams) :
    globalLedgerEntry tm.endTime ∈ (updateSportsData opts out tm).ledger
    ∧ (updateSportsData opts out tm).ledger.getLast?
        = some (globalLedgerEntry tm.endTime)
    ∧ (∀ e ∈ (updateSportsData opts out tm).ledger,
        e.key = "lastUpdateTime" → e = globalLedgerEntry tm.endTime)
    ∧ (opts.nba = true →
        ∀ e ∈ logSeasonUpdate "NBA" out.nbaResult tm.nbaStart tm.nbaEnd opts.nbaSeason,
          e ∈ (updateSportsData opts out tm).ledger)
    ∧ (opts.epl = true →
        ∀ e ∈ logSeasonUpdate "EPL" out.eplResult tm.eplStart tm.eplEnd opts.eplSeason,
          e ∈ (updateSportsData opts out tm).ledger)
    ∧ (∀ e ∈ (updateSportsData opts out tm).ledger,
        e.key = "lastUpdateTime"
        ∨ e ∈ logSeasonUpdate "NBA" out.nbaResult tm.nbaStart tm.nbaEnd opts.nbaSeason
        ∨ e ∈ logSeasonUpdate "EPL" out.eplResult tm.eplStart tm.eplEnd opts.eplSeason) := by
  obtain ⟨nba, nfl, epl, nbaType, nbaSeason, eplSeason⟩ := opts
  have hkeyNBA : ∀ s : Int, ¬ ("lastUpdate_NBA_" ++ toString s = "lastUpdateTime") := by
    intro s h
    have hlen := congrArg String.length h
    rw [String.length_append] at hlen
    have h15 : ("lastUpdate_NBA_" : String).length = 15 := rfl
    have h14 : ("lastUpdateTime" : String).length = 14 := rfl
    omega
  have hkeyEPL : ∀ s : Int, ¬ ("lastUpdate_EPL_" ++ toString s = "lastUpdateTime") := by
    intro s h
    have hlen := congrArg String.length h
    rw [String.length_append] at hlen
    have h15 : ("lastUpdate_EPL_" : String).length = 15 := rfl
    have h14 : ("lastUpdateTime" : String).length = 14 := rfl
    omega
  cases nba <;> cases epl <;>
    simp_all [updateSportsData, logSeasonUpdate, globalLedgerEntry]

/-- Witness for C8 (amended): in a concrete all-leagues cycle both NBA
entries are in the ledger and the global entry is the final write. -/
theorem updateSportsData_ledger_spec_witness :
    (logSeasonUpdate "NBA" true 1 2 2025).head?
        = some { key := "lastUpdate_NBA", success := some true,
                 duration := some (((2 : ℚ) - (1 : ℚ)) / 1000),
                 season := some 2025, timestamp := 2 }
    ∧ (∀ e ∈ logSeasonUpdate "NBA" true 1 2 2025,
        e ∈ (updateSportsData optsAll outMidFail tm0).ledger)
    ∧ (updateSportsData optsAll outMidFail tm0).ledger.getLast?
        = some (globalLedgerEntry 5) := by
  obtain ⟨-, h2, -, h4, -, -⟩ :=
    updateSportsData_ledger_spec optsAll outMidFail tm0
  exact ⟨by simp [logSeasonUpdate], h4 rfl, h2⟩

/-! ### EPL service: provider payload, detail document and summary row -/

/-- The `team` object inside one API-Football statistics block. -/
structure ApiTeam where
  id : Int
  name : String
  deriving DecidableEq

/-- The `games` object of an API-Football statistics block.  The provider
spells the appearance count `appearences`; the correctly spelled
`appearances` key does not occur in provider payloads, but the summary
path of `eplService.js` reads it, so both are modelled. -/
structure ApiGames where
  appearences : Option ℚ
  appearances : Option ℚ
  lineups : Option ℚ
  minutes : Option ℚ
  rating : Option ℚ
  position : String
  number : Option ℚ
  captain : Bool
  deriving DecidableEq

/-- The `goals` object of an API-Football statistics block. -/
structure ApiGoals where
  total : Option ℚ
  assists : Option ℚ
  conceded : Option ℚ
  saves : Option ℚ
  deriving DecidableEq

/-- The `cards` object of an API-Football statistics block. -/
structure ApiCards where
  yellow : Option ℚ
  yellowred : Option ℚ
  red : Option ℚ
  deriving DecidableEq

/-- The `shots` object of an API-Football statistics block (the source
field `on` is a reserved token in Lean and is modelled as `onTarget`). -/
structure ApiShots where
  total : Option ℚ
  onTarget : Option ℚ
  deriving DecidableEq

/-- The `passes` object of an API-Football statistics block. -/
structure ApiPasses where
  total : Option ℚ
  key : Option ℚ
  accuracy : Option ℚ
  deriving DecidableEq

/-- The `tackles` object of an API-Football statistics block. -/
structure ApiTackles where
  total : Option ℚ
  blocks : Option ℚ
  interceptions : Option ℚ
  deriving DecidableEq

/-- The `duels` object of an API-Football statistics block. -/
structure ApiDuels where
  total : Option ℚ
  won : Option ℚ
  deriving DecidableEq

/-- The `dribbles` object of an API-Football statistics block. -/
structure ApiDribbles where
  attempts : Option ℚ
  success : Option ℚ
  past : Option ℚ
  deriving DecidableEq

/-- The `fouls` object of an API-Football statistics block. -/
structure ApiFouls where
  drawn : Option ℚ
  committed : Option ℚ
  deriving DecidableEq

/-- The `penalty` object of an API-Football statistics block (the
provider spells `commited` with one t). -/
structure ApiPenalty where
  won : Option ℚ
  commited : Option ℚ
  scored : Option ℚ
  missed : Option ℚ
  saved : Option ℚ
  deriving DecidableEq

/-- One API-Football statistics block (`stats` in
`updateFromApiFootball`). -/
structure ApiStats where
  team : ApiTeam
  games : ApiGames
  goals : ApiGoals
  cards : ApiCards
  shots : ApiShots
  passes : ApiPasses
  tackles : ApiTackles
  duels : ApiDuels
  dribbles : ApiDribbles
  fouls : ApiFouls
  penalty : ApiPenalty
  deriving DecidableEq

/-- The `player` object of one API-Football record. -/
structure ApiPlayer where
  id : Int
  name : String
  firstname : String
  lastname : String
  age : ℚ
  nationality : String
  height : String
  weight : String
  photo : String
  injured : Bool
  deriving DecidableEq

/-- JavaScript `x || 0` on a possibly-absent numeric field. -/
def orZero (o : Option ℚ) : ℚ := o.getD 0

/-- Model of `getSafeStatValue` (eplService.js lines 43-48): with the
fields already typed as options, the safe access is the option itself —
`none` for an absent subfield, the raw value otherwise. -/
def getSafeStatValue (o : Option ℚ) : Option ℚ := o

/-- ASCII lower-casing at the character-list level, the model of
JavaScript `toLowerCase()` on the ASCII position strings the provider
sends. -/
def toLowerList (l : List Char) : List Char := l.map Char.toLower

/-- Model of `isGoalkeeper` (eplService.js lines 55-58). -/
def isGoalkeeper (position : String) : Bool :=
  containsList "goalkeeper".toList (toLowerList position.toList)
    || toLowerList position.toList == "gk".toList

/-- JavaScript `x > 0` where `x` may be `undefined` (an undefined operand
makes the comparison false). -/
def jsGtZero : Option ℚ → Bool
  | some v => decide (0 < v)
  | none => false

/-- The skip guard `if (!stats || stats.games?.appearences <= 0) continue`
(eplService.js line 284); an absent count compares false. -/
def eplSkip (stats : ApiStats) : Bool :=
  match stats.games.appearences with
  | some v => decide (v ≤ 0)
  | none => false

/-- A season entry of an `EPLPlayerStats` detail document (numeric fields
already defaulted through `|| 0` at write time). -/
structure EplGoals where
  total : ℚ
  assists : ℚ
  conceded : ℚ
  saves : ℚ
  deriving DecidableEq

structure EplCards where
  yellow : ℚ
  yellowred : ℚ
  red : ℚ
  deriving DecidableEq

structure EplShots where
  total : ℚ
  onTarget : ℚ
  deriving DecidableEq

structure EplPasses where
  total : ℚ
  key : ℚ
  accuracy : ℚ
  deriving DecidableEq

structure EplTackles where
  total : ℚ
  blocks : ℚ
  interceptions : ℚ
  deriving DecidableEq

structure EplDuels where
  total : ℚ
  won : ℚ
  deriving DecidableEq

structure EplDribbles where
  attempts : ℚ
  success : ℚ
  past : ℚ
  deriving DecidableEq

structure EplFouls where
  drawn : ℚ
  committed : ℚ
  deriving DecidableEq

structure EplPenalty where
  won : ℚ
  commited : ℚ
  scored : ℚ
  missed : ℚ
  saved : ℚ
  deriving DecidableEq

/-- One season entry inside an `EPLPlayerStats` document, keyed by
`season` alone (single-phase sport). -/
structure EplSeasonEntry where
  season : Int
  team : String
  teamId : String
  position : String
  appearances : ℚ
  lineups : ℚ
  minutes : ℚ
  rating : Option ℚ
  goals : EplGoals
  cards : EplCards
  shots : EplShots
  passes : EplPasses
  tackles : EplTackles
  duels : EplDuels
  dribbles : EplDribbles
  fouls : EplFouls
  penalty : EplPenalty
  lastUpdated : Nat
  deriving DecidableEq

/-- The field values written into a season entry by `updateFromApiFootball`
— identical in the create branch (eplService.js lines 313-387) and the
update branch (lines 388-454); note `appearances` is populated from the
provider-spelled `stats.games.appearences`. -/
def eplSeasonPayload (season : Int) (stats : ApiStats) (now : Nat) : EplSeasonEntry :=
  { season := season,
    team := stats.team.name,
    teamId := "epl_" ++ toString stats.team.id,
    position := stats.games.position,
    appearances := orZero stats.games.appearences,
    lineups := orZero stats.games.lineups,
    minutes := orZero stats.games.minutes,
    rating := stats.games.rating,
    goals := { total := orZero stats.goals.total,
               assists := orZero stats.goals.assists,
               conceded := orZero stats.goals.conceded,
               saves := orZero stats.goals.saves },
    cards := { yellow := orZero stats.cards.yellow,
               yellowred := orZero stats.cards.yellowred,
               red := orZero stats.cards.red },
    shots := { total := orZero stats.shots.total,
               onTarget := orZero stats.shots.onTarget },
    passes := { total := orZero stats.passes.total,
                key := orZero stats.passes.key,
                accuracy := orZero stats.passes.accuracy },
    tackles := { total := orZero stats.tackles.total,
                 blocks := orZero stats.tackles.blocks,
                 interceptions := orZero stats.tackles.interceptions },
    duels := { total := orZero stats.duels.total,
               won := orZero stats.duels.won },
    dribbles := { attempts := orZero stats.dribbles.attempts,
                  success := orZero stats.dribbles.success,
                  past := orZero stats.dribbles.past },
    fouls := { drawn := orZero stats.fouls.drawn,
               committed := orZero stats.fouls.committed },
    penalty := { won := orZero stats.penalty.won,
                 commited := orZero stats.penalty.commited,
                 scored := orZero stats.penalty.scored,
                 missed := orZero stats.penalty.missed,
                 saved := orZero stats.penalty.saved },
    lastUpdated := now }

/-- The find-or-create step on the `seasons` array of an `EPLPlayerStats`
document (`eplPlayerStats.seasons.find(s => s.season === season)`,
eplService.js line 311): the first matching entry is overwritten in
place, a missing season is pushed onto the end. -/
def eplMergeSeasonList (l : List EplSeasonEntry) (season : Int)
    (stats : ApiStats) (now : Nat) : List EplSeasonEntry :=
  match l with
  | [] => [eplSeasonPayload season stats now]
  | e :: rest =>
    if e.season = season then eplSeasonPayload season stats now :: rest
    else e :: eplMergeSeasonList rest season stats now

/-- An `EPLPlayerStats` detail document. -/
structure EplDoc where
  playerId : String
  name : String
  firstname : String
  lastname : String
  age : ℚ
  nationality : String
  height : String
  weight : String
  photo : String
  seasons : List EplSeasonEntry
  deriving DecidableEq

/-- The detail-document update of step 4a of `updateFromApiFootball`
(eplService.js lines 290-457), acting on the single document keyed by the
player's id. -/
def eplUpdatePlayerDetail (store : Option EplDoc) (player : ApiPlayer)
    (season : Int) (stats : ApiStats) (now : Nat) : EplDoc :=
  let doc : EplDoc :=
    match store with
    | none =>
      { playerId := toString player.id, name := player.name,
        firstname := player.firstname, lastname := player.lastname,
        age := player.age, nationality := player.nationality,
        height := player.height, weight := player.weight,
        photo := player.photo, seasons := [] }
    | some d => d
  { doc with seasons := eplMergeSeasonList doc.seasons season stats now }

/-- The `Player` summary row upserted by step 4b of
`updateFromApiFootball` (eplService.js lines 464-521). -/
structure EplPlayerRow where
  playerId : String
  teamId : String
  league : String
  name : String
  position : String
  number : Option ℚ
  nationality : String
  age : ℚ
  height : String
  weight : String
  image : String
  isCaptain : Bool
  isInjured : Bool
  eplStatsRef : String
  statsGamesPlayed : ℚ
  statsGamesStarted : ℚ
  sportStats : List (String × ℚ)
  lastUpdated : Nat
  deriving DecidableEq

/-- Model of the summary-row write of `updateFromApiFootball`
(eplService.js lines 464-521).  `stats.games.appearances` — the correctly
spelled key, not the provider's `appearences` — feeds both `gamesPlayed`
(line 483) and the goalkeeper clean-sheet test (line 490). -/
def eplPlayerRow (player : ApiPlayer) (stats : ApiStats) (now : Nat) : EplPlayerRow :=
  let isKeeper := isGoalkeeper stats.games.position
  { playerId := "epl_" ++ toString player.id,
    teamId := "epl_" ++ toString stats.team.id,
    league := "EPL",
    name := player.name,
    position := if stats.games.position = "" then "N/A" else stats.games.position,
    number := stats.games.number,
    nationality := player.nationality,
    age := player.age,
    height := player.height,
    weight := player.weight,
    image := player.photo,
    isCaptain := stats.games.captain,
    isInjured := player.injured,
    eplStatsRef := toString player.id,
    statsGamesPlayed := orZero stats.games.appearances,
    statsGamesStarted := orZero stats.games.lineups,
    sportStats :=
      if isKeeper then
        [("yellowCards", orZero (getSafeStatValue stats.cards.yellow)),
         ("redCards", orZero (getSafeStatValue stats.cards.red)),
         ("cleanSheets",
          if getSafeStatValue stats.goals.conceded = some 0
              ∧ jsGtZero stats.games.appearances = true then (1 : ℚ) else 0),
         ("goalsSaved", orZero (getSafeStatValue stats.goals.saves)),
         ("goalsConceded", orZero (getSafeStatValue stats.goals.conceded)),
         ("penaltySaved", orZero (getSafeStatValue stats.penalty.saved))]
      else
        [("goals", orZero (getSafeStatValue stats.goals.total)),
         ("assists", orZero (getSafeStatValue stats.goals.assists)),
         ("yellowCards", orZero (getSafeStatValue stats.cards.yellow)),
         ("redCards", orZero (getSafeStatValue stats.cards.red)),
         ("keyPasses", orZero (getSafeStatValue stats.passes.key)),
         ("totalPasses", orZero (getSafeStatValue stats.passes.total)),
         ("passAccuracy", orZero (getSafeStatValue stats.passes.accuracy)),
         ("tackles", orZero (getSafeStatValue stats.tackles.total)),
         ("blocks", orZero (getSafeStatValue stats.tackles.blocks)),
         ("interceptions", orZero (getSafeStatValue stats.tackles.interceptions)),
         ("shotsTotal", orZero (getSafeStatValue stats.shots.total)),
         ("shotsOnTarget", orZero (getSafeStatValue stats.shots.onTarget)),
         ("dribblesAttempted", orZero (getSafeStatValue stats.dribbles.attempts)),
         ("dribblesSuccessful", orZero (getSafeStatValue stats.dribbles.success)),
         ("foulsDrawn", orZero (getSafeStatValue stats.fouls.drawn)),
         ("foulsCommitted", orZero (getSafeStatValue stats.fouls.committed)),
         ("penaltyScored", orZero (getSafeStatValue stats.penalty.scored)),
         ("penaltyMissed", orZero (getSafeStatValue stats.penalty.missed)),
         ("penaltyWon", orZero (getSafeStatValue stats.penalty.won))],
    lastUpdated := now }

/-! ### Season-key uniqueness invariant (C9) and the appearances
spelling mismatch (C10) -/

theorem setCategory_fresh_season (r : StatsRecord) (team : String)
    (dt : DataType) (now : Nat) :
    (setCategory (freshSeasonEntry r team now) r dt).season = r.season := by
  cases dt <;> rfl

/-- When the record's season is already present, the merge leaves the
season keys of the array unchanged (it rewrites the first matching entry
in place). -/
theorem mergeSeasonList_map_season (l : List SeasonEntry) (r : StatsRecord)
    (team : String) (dt : DataType) (now : Nat)
    (h : r.season ∈ l.map SeasonEntry.season) :
    (mergeSeasonList l r team dt now).map SeasonEntry.season
      = l.map SeasonEntry.season := by
  induction l with
  | nil => simp at h
  | cons e rest ih =>
      by_cases he : e.season = r.season
      · simp [mergeSeasonList, he, setCategory_season, setMeta_season]
      · have h3 : r.season ∈ SeasonEntry.season e :: rest.map SeasonEntry.season := by
          simpa only [List.map_cons] using h
        have h2 : r.season ∈ rest.map SeasonEntry.season := by
          rcases List.mem_cons.mp h3 with hc | hc
          · exact absurd hc.symm he
          · exact hc
        simp [mergeSeasonList, he, ih h2]

/-- The merge preserves distinctness of season keys. -/
theorem mergeSeasonList_nodup (l : List SeasonEntry) (r : StatsRecord)
    (team : String) (dt : DataType) (now : Nat)
    (h : (l.map SeasonEntry.season).Nodup) :
    ((mergeSeasonList l r team dt now).map SeasonEntry.season).Nodup := by
  by_cases hmem : r.season ∈ l.map SeasonEntry.season
  · rw [mergeSeasonList_map_season l r team dt now hmem]
    exact h
  · have habs : ∀ x ∈ l, x.season ≠ r.season := by
      intro x hx hc
      exact hmem (hc ▸ List.mem_map_of_mem SeasonEntry.season hx)
    rw [mergeSeasonList_absent r team dt now l habs, List.map_append]
    rw [List.nodup_append]
    refine ⟨h, by simp, ?_⟩
    intro a ha hb
    simp [setCategory_fresh_season] at hb
    exact hmem (hb ▸ ha)

/-- Distinct season keys in both phase arrays of a detail document. -/
def nbaDocInv (d : NbaDoc) : Prop :=
  (d.regularSeasons.map SeasonEntry.season).Nodup
    ∧ (d.playoffs.map SeasonEntry.season).Nodup

def nbaInvOpt : Option NbaDoc → Prop
  | none => True
  | some d => nbaDocInv d

theorem updatePlayerStats_preserves_inv (store : Option NbaDoc)
    (pid pname team : String) (r : StatsRecord) (isPlayoffs : Bool)
    (dt : DataType) (now : Nat) (h : nbaInvOpt store) :
    nbaDocInv (updatePlayerStats store pid pname team r isPlayoffs dt now).1 := by
  cases store with
  | none =>
      cases isPlayoffs
      · exact ⟨by simpa [updatePlayerStats] using
                 mergeSeasonList_nodup [] r team dt now (by simp),
               by simp [updatePlayerStats]⟩
      · exact ⟨by simp [updatePlayerStats],
               by simpa [updatePlayerStats] using
                 mergeSeasonList_nodup [] r team dt now (by simp)⟩
  | some d =>
      obtain ⟨h1, h2⟩ := h
      cases isPlayoffs
      · exact ⟨by simpa [updatePlayerStats] using
                 mergeSeasonList_nodup d.regularSeasons r team dt now h1,
               by simpa [updatePlayerStats] using h2⟩
      · exact ⟨by simpa [updatePlayerStats] using h1,
               by simpa [updatePlayerStats] using
                 mergeSeasonList_nodup d.playoffs r team dt now h2⟩

/-- One NBA merge operation (one `updatePlayerStats` call). -/
inductive NbaOp where
  | op (pid pname team : String) (r : StatsRecord) (isPlayoffs : Bool)
      (dt : DataType) (now : Nat)

def applyNbaOp (store : Option NbaDoc) : NbaOp → NbaDoc
  | .op pid pname team r isP dt now =>
    (updatePlayerStats store pid pname team r isP dt now).1

/-- A sequence of NBA merges applied to one player's detail document. -/
def applyNbaOps (store : Option NbaDoc) (ops : List NbaOp) : Option NbaDoc :=
  ops.foldl (fun acc o => some (applyNbaOp acc o)) store

theorem applyNbaOps_inv (ops : List NbaOp) : ∀ store : Option NbaDoc,
    nbaInvOpt store → nbaInvOpt (applyNbaOps store ops) := by
  induction ops with
  | nil => intro store h; exact h
  | cons o os ih =>
      intro store h
      have hstep : nbaDocInv (applyNbaOp store o) := by
        cases o with
        | op pid pname team r isP dt now =>
          exact updatePlayerStats_preserves_inv store pid pname team r isP dt now h
      exact ih (some (applyNbaOp store o)) hstep

theorem eplMergeSeasonList_absent (l : List EplSeasonEntry) (season : Int)
    (stats : ApiStats) (now : Nat) (h : ∀ x ∈ l, x.season ≠ season) :
    eplMergeSeasonList l season stats now
      = l ++ [eplSeasonPayload season stats now] := by
  induction l with
  | nil => rfl
  | cons e rest ih =>
      have he : e.season ≠ season := h e (by simp)
      have ih2 := ih (fun y hy => h y (by simp [hy]))
      simp [eplMergeSeasonList, he, ih2]

theorem eplMergeSeasonList_map_season (l : List EplSeasonEntry)
    (season : Int) (stats : ApiStats) (now : Nat)
    (h : season ∈ l.map EplSeasonEntry.season) :
    (eplMergeSeasonList l season stats now).map EplSeasonEntry.season
      = l.map EplSeasonEntry.season := by
  induction l with
  | nil => simp at h
  | cons e rest ih =>
      by_cases he : e.season = season
      · simp [eplMergeSeasonList, he, eplSeasonPayload]
      · have h3 : season ∈ EplSeasonEntry.season e :: rest.map EplSeasonEntry.season := by
          simpa only [List.map_cons] using h
        have h2 : season ∈ rest.map EplSeasonEntry.season := by
          rcases List.mem_cons.mp h3 with hc | hc
          · exact absurd hc.symm he
          · exact hc
        simp [eplMergeSeasonList, he, ih h2]

theorem eplMergeSeasonList_nodup (l : List EplSeasonEntry) (season : Int)
    (stats : ApiStats) (now : Nat)
    (h : (l.map EplSeasonEntry.season).Nodup) :
    ((eplMergeSeasonList l season stats now).map EplSeasonEntry.season).Nodup := by
  by_cases hmem : season ∈ l.map EplSeasonEntry.season
  · rw [eplMergeSeasonList_map_season l season stats now hmem]
    exact h
  · have habs : ∀ x ∈ l, x.season ≠ season := by
      intro x hx hc
      exact hmem (hc ▸ List.mem_map_of_mem EplSeasonEntry.season hx)
    rw [eplMergeSeasonList_absent l season stats now habs, List.map_append]
    rw [List.nodup_append]
    refine ⟨h, by simp, ?_⟩
    intro a ha hb
    simp [eplSeasonPayload] at hb
    exact hmem (hb ▸ ha)

/-- Distinct season keys in the seasons array of an EPL detail document. -/
def eplDocInv (d : EplDoc) : Prop :=
  (d.seasons.map EplSeasonEntry.season).Nodup

def eplInvOpt : Option EplDoc → Prop
  | none => True
  | some d => eplDocInv d

/-- One EPL merge operation (one step-4a document update). -/
inductive EplOp where
  | op (player : ApiPlayer) (season : Int) (stats : ApiStats) (now : Nat)

def applyEplOp (store : Option EplDoc) : EplOp → EplDoc
  | .op player season stats now =>
    eplUpdatePlayerDetail store player season stats now

/-- A sequence of EPL merges applied to one player's detail document. -/
def applyEplOps (store : Option EplDoc) (ops : List EplOp) : Option EplDoc :=
  ops.foldl (fun acc o => some (applyEplOp acc o)) store

theorem applyEplOps_inv (ops : List EplOp) : ∀ store : Option EplDoc,
    eplInvOpt store → eplInvOpt (applyEplOps store ops) := by
  induction ops with
  | nil => intro store h; exact h
  | cons o os ih =>
      intro store h
      have hstep : eplDocInv (applyEplOp store o) := by
        cases o with
        | op player season stats now =>
          cases store with
          | none =>
              exact eplMergeSeasonList_nodup [] season stats now (by simp)
          | some d =>
              exact eplMergeSeasonList_nodup d.seasons season stats now h
      exact ih (some (applyEplOp store o)) hstep

/-- C9: starting from nothing, any sequence of merge operations keeps at
most one season entry per `(season, phase)` key in every seasons array —
NBA phases live in separate arrays keyed by season, the EPL document has a
single season-keyed array — and each single merge either rewrites the
existing entry for its key in place (key multiset unchanged) or appends
one entry for a key not yet present. -/
theorem seasons_unique_per_key :
    (∀ (store : Option NbaDoc) (ops : List NbaOp),
      nbaInvOpt store → nbaInvOpt (applyNbaOps store ops))
    ∧ (∀ (store : Option EplDoc) (ops : List EplOp),
      eplInvOpt store → eplInvOpt (applyEplOps store ops))
    ∧ (∀ (l : List SeasonEntry) (r : StatsRecord) (team : String)
        (dt : DataType) (now : Nat), r.season ∈ l.map SeasonEntry.season →
        (mergeSeasonList l r team dt now).map SeasonEntry.season
          = l.map SeasonEntry.season)
    ∧ (∀ (l : List SeasonEntry) (r : StatsRecord) (team : String)
        (dt : DataType) (now : Nat), (∀ x ∈ l, x.season ≠ r.season) →
        mergeSeasonList l r team dt now
          = l ++ [setCategory (freshSeasonEntry r team now) r dt])
    ∧ (∀ (l : List EplSeasonEntry) (season : Int) (stats : ApiStats)
        (now : Nat), season ∈ l.map EplSeasonEntry.season →
        (eplMergeSeasonList l season stats now).map EplSeasonEntry.season
          = l.map EplSeasonEntry.season)
    ∧ (∀ (l : List EplSeasonEntry) (season : Int) (stats : ApiStats)
        (now : Nat), (∀ x ∈ l, x.season ≠ season) →
        eplMergeSeasonList l season stats now
          = l ++ [eplSeasonPayload season stats now]) := by
  refine ⟨?_, ?_, ?_, ?_, ?_, ?_⟩
  · intro store ops h
    exact applyNbaOps_inv ops store h
  · intro store ops h
    exact applyEplOps_inv ops store h
  · intro l r team dt now h
    exact mergeSeasonList_map_season l r team dt now h
  · intro l r team dt now h
    exact mergeSeasonList_absent r team dt now l h
  · intro l season stats now h
    exact eplMergeSeasonList_map_season l season stats now h
  · intro l season stats now h
    exact eplMergeSeasonList_absent l season stats now h

def rec9 : StatsRecord :=
  { playerId := "p9", playerName := "P Nine", season := 2024, team := "LAL",
    id := 2, games := 10, points := 100 }

/-- Witness for C9: a totals merge followed by an advanced merge for the
same season, from an empty store, keeps the season keys distinct. -/
theorem seasons_unique_per_key_witness :
    nbaInvOpt (applyNbaOps none
      [NbaOp.op "p9" "P Nine" "LAL" rec9 false DataType.totals 1,
       NbaOp.op "p9" "P Nine" "LAL" rec9 false DataType.advanced 2]) :=
  seasons_unique_per_key.1 none
    [NbaOp.op "p9" "P Nine" "LAL" rec9 false DataType.totals 1,
     NbaOp.op "p9" "P Nine" "LAL" rec9 false DataType.advanced 2] trivial

/-- C10: for a provider record whose games object carries only the
provider's `appearences` spelling, the record passes the skip guard, yet
the summary row's `gamesPlayed` is 0 and a goalkeeper's derived
`cleanSheets` figure is 0 — while the detail season entry stores the
positive count from the same record — because the summary path reads the
`appearances` spelling and the detail path reads `appearences`. -/
theorem epl_summary_appearances_mismatch (player : ApiPlayer)
    (stats : ApiStats) (now : Nat) (season : Int) (n : ℚ)
    (hmiss : stats.games.appearances = none)
    (hprov : stats.games.appearences = some n) (hpos : 0 < n) :
    eplSkip stats = false
    ∧ (eplPlayerRow player stats now).statsGamesPlayed = 0
    ∧ (isGoalkeeper stats.games.position = true →
        List.lookup "cleanSheets" (eplPlayerRow player stats now).sportStats
          = some 0)
    ∧ (eplSeasonPayload season stats now).appearances = n
    ∧ 0 < (eplSeasonPayload season stats now).appearances := by
  refine ⟨?_, ?_, ?_, ?_, ?_⟩
  · simp only [eplSkip, hprov]
    simpa using not_le.mpr hpos
  · simp [eplPlayerRow, hmiss, orZero]
  · intro hk
    simp [eplPlayerRow, hk, hmiss, jsGtZero, List.lookup]
  · simp [eplSeasonPayload, hprov, orZero]
  · simp [eplSeasonPayload, hprov, orZero, hpos]

def gkPlayer : ApiPlayer :=
  { id := 280, name := "G Keeper", firstname := "G", lastname := "Keeper",
    age := 28, nationality := "England", height := "190 cm",
    weight := "85 kg", photo := "p.png", injured := false }

def gkStats : ApiStats :=
  { team := { id := 50, name := "Arsenal" },
    games := { appearences := some 5, appearances := none, lineups := some 5,
               minutes := some 450, rating := none, position := "Goalkeeper",
               number := some 1, captain := false },
    goals := { total := some 0, assists := some 0, conceded := some 0,
               saves := some 20 },
    cards := { yellow := some 0, yellowred := some 0, red := some 0 },
    shots := { total := some 0, onTarget := some 0 },
    passes := { total := some 100, key := some 0, accuracy := some 80 },
    tackles := { total := some 0, blocks := some 0, interceptions := some 0 },
    duels := { total := some 2, won := some 1 },
    dribbles := { attempts := some 0, success := some 0, past := some 0 },
    fouls := { drawn := some 0, committed := some 0 },
    penalty := { won := some 0, commited := some 0, scored := some 0,
                 missed := some 0, saved := some 2 } }

/-- Witness for C10: a goalkeeper with 5 provider-spelled appearances and
zero goals conceded gets `gamesPlayed = 0` and `cleanSheets = 0` in the
summary row while the detail entry stores 5 appearances. -/
theorem epl_summary_appearances_mismatch_witness :
    eplSkip gkStats = false
    ∧ (eplPlayerRow gkPlayer gkStats 11).statsGamesPlayed = 0
    ∧ List.lookup "cleanSheets" (eplPlayerRow gkPlayer gkStats 11).sportStats
        = some 0
    ∧ (eplSeasonPayload 2024 gkStats 11).appearances = 5 := by
  obtain ⟨h1, h2, h3, h4, -⟩ :=
    epl_summary_appearances_mismatch gkPlayer gkStats 11 2024 5 rfl rfl
      (by norm_num)
  exact ⟨h1, h2, h3 (by decide), h4⟩

end SportsPipeline
